import Mathlib

/-!
Verification of Colligo (`src/cmd/main.go`): a tool that walks a directory
tree and concatenates the contents of every non-hidden file into one output
artifact, each file bracketed by begin/end markers.

The embedding below mirrors the Go source:

* `isHidden` is `isHidden` (main.go:139-141), i.e. `strings.HasPrefix(name, ".")`.
* `writeFileContent` is `writeFileContent` (main.go:144-183).  The buffered
  writer is modelled as an append-only byte string (writes to a `bufio.Writer`
  buffer are modelled as infallible; the final `Flush` can fail, see `mainRun`).
  File contents and error descriptions are modelled as strings; the outcome of
  `os.Open` + `io.Copy` for a path is an oracle `fs : String → ReadOutcome`.
* `walkStep` is the body of the `filepath.WalkDir` callback (main.go:71-122):
  the `err` argument check, symlink evaluation + re-normalisation
  (`filepath.EvalSymlinks` then `filepath.Abs(filepath.Clean ...)`, folded into
  one `Except String String`), the output-file self-exclusion check, the
  hidden-entry rules and the call to `writeFileContent`.  The `filepath.Rel`
  call is modelled as always succeeding (the walk only hands out paths under
  the root); its result is the `relativePath` argument.
* `walkNode`/`walkEntries` implement `filepath.WalkDir`'s pre-order traversal
  over a tree `FSNode` of entries: a callback error aborts the whole walk,
  `SkipDir` on a directory skips its subtree, otherwise children are visited
  in listing order and their output is concatenated.
* `mainRun` is the fatal-error skeleton of `main` (main.go:48-135): root path
  resolution, output-file creation, the walk, and the final flush; it returns
  the process exit code together with the flushed artifact on success.

Log lines are modelled as the list of `slog` message texts emitted for the
entry, in order.
-/

namespace Colligo

/-- `isHidden` (main.go:139-141): `strings.HasPrefix(name, ".")`.
`strings.HasPrefix(s, pre)` holds iff `pre` is a prefix of `s`. -/
def isHidden (name : String) : Bool :=
  List.isPrefixOf ".".data name.data

/-- Outcome of `os.Open` followed by `io.Copy` for one path: the whole
content on success, the error description if the open fails, or the bytes
copied before a mid-copy failure together with that error's description. -/
inductive ReadOutcome where
  | ok (content : String)
  | openErr (msg : String)
  | copyErr (copied : String) (msg : String)
  deriving Repr, DecidableEq

/-- The begin marker written by `writeFileContent` (main.go:146). -/
def beginMarker (relativePath : String) : String :=
  "\n\n# BEGIN FILE: " ++ relativePath ++ "\n\n"

/-- The end marker written by `writeFileContent` (main.go:178). -/
def endMarker (relativePath : String) : String :=
  "\n\n# END FILE: " ++ relativePath ++ "\n\n"

/-- The in-band diagnostic line written when the open fails (main.go:157). -/
def readErrorLine (relativePath msg : String) : String :=
  "# Error reading " ++ relativePath ++ ": " ++ msg ++ "\n"

/-- What one `writeFileContent` call does: bytes appended to the writer, the
returned `error` (`none` = `nil`), and the log messages it emits. -/
structure SerializeResult where
  written : String
  err : Option String
  logs : List String
  deriving Repr, DecidableEq

/-- `writeFileContent` (main.go:144-183).  Writes the begin marker, then opens
`filePath`: on open failure it writes the single diagnostic line and returns
the error (no end marker); on a mid-copy failure the bytes copied so far stay
in the writer and the error is returned; on success it writes the content
verbatim followed by the end marker and returns `nil`. -/
def writeFileContent (fs : String → ReadOutcome) (filePath relativePath : String) :
    SerializeResult :=
  match fs filePath with
  | .openErr msg =>
      { written := beginMarker relativePath ++ readErrorLine relativePath msg
        err := some msg
        logs := ["Error opening file"] }
  | .copyErr copied msg =>
      { written := beginMarker relativePath ++ copied
        err := some msg
        logs := ["Error copying file content"] }
  | .ok content =>
      { written := beginMarker relativePath ++ content ++ endMarker relativePath
        err := none
        logs := [] }

/-- Value returned by the `filepath.WalkDir` callback: `nil`,
`filepath.SkipDir`, or a real error (which aborts the whole walk). -/
inductive WalkAction where
  | cont
  | skipDir
  | fail (msg : String)
  deriving Repr, DecidableEq

/-- What one callback invocation does: its return value, the bytes it appended
to the writer, and the log messages it emitted. -/
structure StepResult where
  action : WalkAction
  written : String
  logs : List String
  deriving Repr, DecidableEq

/-- The body of the `filepath.WalkDir` callback (main.go:71-122) for one
visited entry.  `walkErr` is the `err` argument passed by the walk driver;
`symlinkRes` is the combined result of `filepath.EvalSymlinks` and the
subsequent `filepath.Abs(filepath.Clean ...)` normalisation (the resolved
absolute path, or the error).  In source order: a driver error is returned
(main.go:72-75); a symlink-resolution error is logged and returned
(main.go:84-95); an entry whose relative path equals the configured output
file is passed over with `nil` (main.go:98-101); a hidden directory other
than `.github` yields `SkipDir`, any other directory `nil` (main.go:104-108);
a hidden file yields `nil` (main.go:110-112); any other file is serialized,
an error from the serializer being logged and swallowed (main.go:115-121). -/
def walkStep (fs : String → ReadOutcome) (outputFile relativePath name : String)
    (isDir : Bool) (walkErr : Option String) (symlinkRes : Except String String) :
    StepResult :=
  match walkErr with
  | some msg => { action := .fail msg, written := "", logs := ["Error accessing path"] }
  | none =>
    match symlinkRes with
    | .error msg =>
        { action := .fail msg, written := ""
          logs := ["Failed to evaluate symbolic link"] }
    | .ok resolvedPath =>
      if relativePath = outputFile then
        { action := .cont, written := "", logs := [] }
      else if isDir then
        if isHidden name && name != ".github" then
          { action := .skipDir, written := "", logs := [] }
        else
          { action := .cont, written := "", logs := [] }
      else if isHidden name then
        { action := .cont, written := "", logs := [] }
      else
        let r := writeFileContent fs resolvedPath relativePath
        { action := .cont
          written := r.written
          logs := r.logs ++ (match r.err with | some _ => ["Error processing file"] | none => []) }

/-- A filesystem subtree as seen by the walk.  Each entry carries the data the
callback's environment supplies for it: the `err` argument from the walk
driver and the symlink-resolution outcome (resolved absolute path or error).
For a file, the resolved path is what `os.Open` receives; the read oracle
`fs` maps it to a `ReadOutcome`. -/
inductive FSNode where
  | file (name : String) (walkErr : Option String) (symlinkRes : Except String String)
  | dir (name : String) (walkErr : Option String) (symlinkRes : Except String String)
      (entries : List FSNode)
  deriving Repr

/-- Base name of an entry (`d.Name()`). -/
def FSNode.name : FSNode → String
  | .file n _ _ => n
  | .dir n _ _ _ => n

/-- Relative path of a child given its parent's relative path, as produced by
`filepath.Rel` during the walk: the root itself is `"."`, its children are
their bare names, deeper entries are slash-joined. -/
def relJoin (parent childName : String) : String :=
  if parent = "." then childName else parent ++ "/" ++ childName

mutual

/-- `filepath.WalkDir` (main.go:71-122) over one subtree whose relative path
is `relPath`: runs the callback on the entry; a returned error aborts the
whole walk with that error, `SkipDir` on a directory skips its children, and
otherwise the children are visited in listing order.  Returns the bytes
appended to the writer, or the aborting error. -/
def walkNode (fs : String → ReadOutcome) (oFile relPath : String) :
    FSNode → Except String String
  | .file name wErr sRes =>
    let s := walkStep fs oFile relPath name false wErr sRes
    match s.action with
    | .fail msg => .error msg
    | _ => .ok s.written
  | .dir name wErr sRes entries =>
    let s := walkStep fs oFile relPath name true wErr sRes
    match s.action with
    | .fail msg => .error msg
    | .skipDir => .ok ""
    | .cont => walkEntries fs oFile relPath entries

/-- The traversal of a directory's children, in listing order; an error from
any child aborts the walk, so later siblings are not visited. -/
def walkEntries (fs : String → ReadOutcome) (oFile relPath : String) :
    List FSNode → Except String String
  | [] => .ok ""
  | n :: rest =>
    match walkNode fs oFile (relJoin relPath n.name) n with
    | .error msg => .error msg
    | .ok w =>
      match walkEntries fs oFile relPath rest with
      | .error msg => .error msg
      | .ok ws => .ok (w ++ ws)

end

/-- The inputs `main` (main.go:17-136) consumes after flag parsing: whether
`filepath.Abs` fails on the repo path (main.go:49-53), whether `os.Create` of
the output file fails (main.go:57-61), the configured output file name (the
verbatim `--output` value, or the generated default), the read oracle, the
tree rooted at the repo path, and whether the final `writer.Flush` fails
(main.go:130-133). -/
structure RunInput where
  absErr : Bool
  createErr : Bool
  outputFile : String
  fs : String → ReadOutcome
  root : FSNode
  flushErr : Bool

/-- The fatal-error skeleton of `main` (main.go:48-135): exit 1 on root path
resolution failure, output-file creation failure, an error returned by
`filepath.WalkDir`, or flush failure; exit 0 otherwise, with the artifact
being exactly the bytes the walk appended.  Returns `(exitCode, artifact)`,
the artifact being `none` on the fatal paths (the buffer is never flushed
there). -/
def mainRun (w : RunInput) : Nat × Option String :=
  if w.absErr then (1, none)
  else if w.createErr then (1, none)
  else
    match walkNode w.fs w.outputFile "." w.root with
    | .error _ => (1, none)
    | .ok written => if w.flushErr then (1, none) else (0, some written)

mutual

/-- No walk-driver fault and no symlink-resolution fault anywhere in the
subtree.  Per-file read faults (`openErr`, `copyErr`) are still allowed: they
live in the read oracle, not in the tree. -/
def faultFree : FSNode → Bool
  | .file _ wErr sRes =>
    wErr.isNone && (match sRes with | .ok _ => true | .error _ => false)
  | .dir _ wErr sRes entries =>
    wErr.isNone && (match sRes with | .ok _ => true | .error _ => false)
      && faultFreeList entries

/-- `faultFree` over a list of siblings. -/
def faultFreeList : List FSNode → Bool
  | [] => true
  | n :: rest => faultFree n && faultFreeList rest

end

mutual

/-- Every relative path the walk can visit in a subtree whose own relative
path is `relPath` (an over-approximation: paths under skipped directories are
included too). -/
def allRelPaths (relPath : String) : FSNode → List String
  | .file _ _ _ => [relPath]
  | .dir _ _ _ entries => relPath :: allRelPathsList relPath entries

/-- `allRelPaths` over a list of siblings of a directory at `relPath`. -/
def allRelPathsList (relPath : String) : List FSNode → List String
  | [] => []
  | n :: rest => allRelPaths (relJoin relPath n.name) n ++ allRelPathsList relPath rest

end

/-! Helper lemmas about single callback invocations. -/

/-- A walk-driver error for the entry is logged and returned (main.go:72-75). -/
theorem walkStep_walkErr (fs : String → ReadOutcome) (oFile rp name msg : String)
    (isDir : Bool) (sRes : Except String String) :
    walkStep fs oFile rp name isDir (some msg) sRes =
      ⟨.fail msg, "", ["Error accessing path"]⟩ := rfl

/-- A symlink-resolution error for the entry is logged and returned
(main.go:84-95). -/
theorem walkStep_symErr (fs : String → ReadOutcome) (oFile rp name msg : String)
    (isDir : Bool) :
    walkStep fs oFile rp name isDir none (.error msg) =
      ⟨.fail msg, "", ["Failed to evaluate symbolic link"]⟩ := rfl

/-- An entry whose relative path equals the output file name produces `nil`,
no bytes and no log (main.go:98-101). -/
theorem walkStep_selfOutput (fs : String → ReadOutcome) (oFile name p : String)
    (isDir : Bool) :
    walkStep fs oFile oFile name isDir none (.ok p) = ⟨.cont, "", []⟩ := by
  simp [walkStep]

/-- A hidden directory other than `.github` (not matching the output name)
yields `SkipDir` (main.go:104-107). -/
theorem walkStep_hiddenDir (fs : String → ReadOutcome) (oFile rp name p : String)
    (hout : rp ≠ oFile) (hhid : isHidden name = true) (hgit : name ≠ ".github") :
    walkStep fs oFile rp name true none (.ok p) = ⟨.skipDir, "", []⟩ := by
  simp [walkStep, hout, hhid, hgit]

/-- Any other directory yields `nil` with no output (main.go:108). -/
theorem walkStep_descendDir (fs : String → ReadOutcome) (oFile rp name p : String)
    (h : isHidden name = false ∨ name = ".github") :
    walkStep fs oFile rp name true none (.ok p) = ⟨.cont, "", []⟩ := by
  rcases h with h | h <;> by_cases hout : rp = oFile <;>
    simp [walkStep, hout, h]

/-- A hidden file yields `nil` with no output, no log and no serializer call
(main.go:110-112); this also holds when its path matches the output name. -/
theorem walkStep_hiddenFile (fs : String → ReadOutcome) (oFile rp name p : String)
    (hhid : isHidden name = true) :
    walkStep fs oFile rp name false none (.ok p) = ⟨.cont, "", []⟩ := by
  by_cases hout : rp = oFile <;> simp [walkStep, hout, hhid]

/-- A non-hidden file not matching the output name is serialized; the
callback returns `nil` even if the serializer returned an error, logging
`Error processing file` in that case (main.go:115-121). -/
theorem walkStep_serialize (fs : String → ReadOutcome) (oFile rp name p : String)
    (hout : rp ≠ oFile) (hhid : isHidden name = false) :
    walkStep fs oFile rp name false none (.ok p) =
      ⟨.cont, (writeFileContent fs p rp).written,
        (writeFileContent fs p rp).logs ++
          (match (writeFileContent fs p rp).err with
            | some _ => ["Error processing file"] | none => [])⟩ := by
  simp [walkStep, hout, hhid]

/-- The callback consults the configured output name only through the
equality test on the entry's relative path (main.go:99). -/
theorem walkStep_oFile_indep (fs : String → ReadOutcome) (o1 o2 rp name : String)
    (isDir : Bool) (wErr : Option String) (sRes : Except String String)
    (h1 : rp ≠ o1) (h2 : rp ≠ o2) :
    walkStep fs o1 rp name isDir wErr sRes = walkStep fs o2 rp name isDir wErr sRes := by
  cases wErr with
  | some m => rfl
  | none =>
    cases sRes with
    | error m => rfl
    | ok p => simp [walkStep, h1, h2]

/-! Helper lemmas about whole-tree traversal. -/

mutual

/-- A subtree free of driver and symlink faults never aborts the walk:
per-file read failures are logged and swallowed. -/
theorem walkNode_ok_of_faultFree (fs : String → ReadOutcome) (oFile rp : String)
    (n : FSNode) (h : faultFree n = true) :
    ∃ w, walkNode fs oFile rp n = .ok w := by
  cases n with
  | file name wErr sRes =>
    cases wErr with
    | some m => simp [faultFree] at h
    | none =>
      cases sRes with
      | error m => simp [faultFree] at h
      | ok p =>
        refine ⟨(walkStep fs oFile rp name false none (.ok p)).written, ?_⟩
        have hact : (walkStep fs oFile rp name false none (.ok p)).action = .cont := by
          by_cases hout : rp = oFile
          · subst hout; simp [walkStep_selfOutput]
          · cases hhid : isHidden name with
            | true => simp [walkStep_hiddenFile fs oFile rp name p hhid]
            | false => simp [walkStep_serialize fs oFile rp name p hout hhid]
        simp [walkNode, hact]
  | dir name wErr sRes entries =>
    cases wErr with
    | some m => simp [faultFree] at h
    | none =>
      cases sRes with
      | error m => simp [faultFree] at h
      | ok p =>
        have hl : faultFreeList entries = true := by
          simp [faultFree] at h; exact h
        have hact : ∀ m, (walkStep fs oFile rp name true none (.ok p)).action ≠ WalkAction.fail m := by
          intro m
          by_cases hout : rp = oFile
          · subst hout; simp [walkStep_selfOutput]
          · by_cases hskip : isHidden name = true ∧ name ≠ ".github"
            · simp [walkStep_hiddenDir fs oFile rp name p hout hskip.1 hskip.2]
            · have h2 : isHidden name = false ∨ name = ".github" := by
                by_cases hh : isHidden name = true
                · right
                  by_contra hg
                  exact hskip ⟨hh, hg⟩
                · left; simpa using hh
              simp [walkStep_descendDir fs oFile rp name p h2]
        obtain ⟨ws, hws⟩ := walkEntries_ok_of_faultFreeList fs oFile rp entries hl
        cases hact2 : (walkStep fs oFile rp name true none (.ok p)).action with
        | fail m => exact absurd hact2 (hact m)
        | skipDir => exact ⟨"", by simp [walkNode, hact2]⟩
        | cont => exact ⟨ws, by simp [walkNode, hact2, hws]⟩

/-- `walkNode_ok_of_faultFree` over sibling lists. -/
theorem walkEntries_ok_of_faultFreeList (fs : String → ReadOutcome) (oFile rp : String)
    (l : List FSNode) (h : faultFreeList l = true) :
    ∃ w, walkEntries fs oFile rp l = .ok w := by
  cases l with
  | nil => exact ⟨"", rfl⟩
  | cons n rest =>
    have h1 : faultFree n = true := by
      simp [faultFreeList] at h; exact h.1
    have h2 : faultFreeList rest = true := by
      simp [faultFreeList] at h; exact h.2
    obtain ⟨w, hw⟩ := walkNode_ok_of_faultFree fs oFile (relJoin rp n.name) n h1
    obtain ⟨ws, hws⟩ := walkEntries_ok_of_faultFreeList fs oFile rp rest h2
    exact ⟨w ++ ws, by simp [walkEntries, hw, hws]⟩

end

mutual

/-- Two configured output names that both avoid every relative path of the
subtree drive the walk identically. -/
theorem walkNode_indep (fs : String → ReadOutcome) (o1 o2 rp : String) (n : FSNode)
    (h1 : o1 ∉ allRelPaths rp n) (h2 : o2 ∉ allRelPaths rp n) :
    walkNode fs o1 rp n = walkNode fs o2 rp n := by
  cases n with
  | file name wErr sRes =>
    have hr1 : rp ≠ o1 := fun hh => by simp [allRelPaths, hh] at h1
    have hr2 : rp ≠ o2 := fun hh => by simp [allRelPaths, hh] at h2
    simp only [walkNode]
    rw [walkStep_oFile_indep fs o1 o2 rp name false wErr sRes hr1 hr2]
  | dir name wErr sRes entries =>
    have hr1 : rp ≠ o1 := fun hh => by simp [allRelPaths, hh] at h1
    have hr2 : rp ≠ o2 := fun hh => by simp [allRelPaths, hh] at h2
    have hl1 : o1 ∉ allRelPathsList rp entries := by
      simp [allRelPaths] at h1; exact h1.2
    have hl2 : o2 ∉ allRelPathsList rp entries := by
      simp [allRelPaths] at h2; exact h2.2
    simp only [walkNode]
    rw [walkStep_oFile_indep fs o1 o2 rp name true wErr sRes hr1 hr2]
    cases hact : (walkStep fs o2 rp name true wErr sRes).action with
    | fail m => rfl
    | skipDir => rfl
    | cont => exact walkEntries_indep fs o1 o2 rp entries hl1 hl2

/-- `walkNode_indep` over sibling lists. -/
theorem walkEntries_indep (fs : String → ReadOutcome) (o1 o2 rp : String)
    (l : List FSNode)
    (h1 : o1 ∉ allRelPathsList rp l) (h2 : o2 ∉ allRelPathsList rp l) :
    walkEntries fs o1 rp l = walkEntries fs o2 rp l := by
  cases l with
  | nil => rfl
  | cons n rest =>
    have hn1 : o1 ∉ allRelPaths (relJoin rp n.name) n := by
      simp [allRelPathsList] at h1; exact h1.1
    have hn2 : o2 ∉ allRelPaths (relJoin rp n.name) n := by
      simp [allRelPathsList] at h2; exact h2.1
    have hrest1 : o1 ∉ allRelPathsList rp rest := by
      simp [allRelPathsList] at h1; exact h1.2
    have hrest2 : o2 ∉ allRelPathsList rp rest := by
      simp [allRelPathsList] at h2; exact h2.2
    simp only [walkEntries]
    rw [walkNode_indep fs o1 o2 (relJoin rp n.name) n hn1 hn2,
      walkEntries_indep fs o1 o2 rp rest hrest1 hrest2]

end

/-! Claim theorems. -/

/-- Claim C7: for all names `n`, `isHidden n` is true iff `n` begins with the
character `.`; in particular `isHidden ".git"` is true, `isHidden "file.txt"`
is false, and `isHidden ""` (the empty string) is false. -/
theorem isHiddenSpec :
    (∀ n : String, isHidden n = true ↔ ∃ t : List Char, n.data = '.' :: t) ∧
    isHidden ".git" = true ∧ isHidden "file.txt" = false ∧ isHidden "" = false := by
  refine ⟨fun n => ?_, by decide, by decide, by decide⟩
  have hdot : ".".data = ['.'] := rfl
  unfold isHidden
  rw [hdot]
  cases hd : n.data with
  | nil => simp [List.isPrefixOf]
  | cons c t =>
    simp only [List.isPrefixOf, Bool.and_true, beq_iff_eq]
    constructor
    · intro h
      exact ⟨t, by rw [← h]⟩
    · rintro ⟨t', ht'⟩
      injection ht' with h1 _
      exact h1.symm

/-- Claim C7 witness: the characterization applied at a concrete name. -/
theorem isHiddenSpec_witness : isHidden ".x" = true :=
  (isHiddenSpec.1 ".x").mpr ⟨['x'], rfl⟩

/-- Claim C2: for every file content `C` (including empty) and relative path
`P`, a successful serialize call appends exactly
`"\n\n# BEGIN FILE: " ++ P ++ "\n\n" ++ C ++ "\n\n# END FILE: " ++ P ++ "\n\n"`
to the sink, with no transformation of `C` — equivalently, exactly
`len(beginMarker) + fileSize + len(endMarker)` bytes — and returns `nil`. -/
theorem serializeRoundTrip (fs : String → ReadOutcome) (filePath P C : String)
    (h : fs filePath = .ok C) :
    (writeFileContent fs filePath P).written =
      "\n\n# BEGIN FILE: " ++ P ++ "\n\n" ++ C ++ "\n\n# END FILE: " ++ P ++ "\n\n" ∧
    (writeFileContent fs filePath P).written.length =
      (beginMarker P).length + C.length + (endMarker P).length ∧
    (writeFileContent fs filePath P).err = none := by
  unfold writeFileContent
  rw [h]
  refine ⟨?_, ?_, rfl⟩
  · show beginMarker P ++ C ++ endMarker P = _
    unfold beginMarker endMarker
    simp [String.append_assoc]
  · show (beginMarker P ++ C ++ endMarker P).length = _
    simp [String.length_append]

/-- Claim C2 witness: serializing an empty file still emits both markers and
appends exactly the two markers' bytes. -/
theorem serializeRoundTrip_witness :
    (writeFileContent (fun _ => .ok "") "/repo/empty.txt" "empty.txt").written =
      "\n\n# BEGIN FILE: " ++ "empty.txt" ++ "\n\n" ++ "" ++
        "\n\n# END FILE: " ++ "empty.txt" ++ "\n\n" ∧
    (writeFileContent (fun _ => .ok "") "/repo/empty.txt" "empty.txt").written.length =
      (beginMarker "empty.txt").length + ("" : String).length +
        (endMarker "empty.txt").length := by
  have h := serializeRoundTrip (fun _ => .ok "") "/repo/empty.txt" "empty.txt" "" rfl
  exact ⟨h.1, h.2.1⟩

/-- Claim C3: if the open fails after the begin marker was written, the
serializer appends the single diagnostic line
`# Error reading <relativePath>: <error>` in place of content (and nothing
else — in particular no end marker) and returns the error; the walk callback
on such a file logs the error and returns `nil`, continuing traversal. -/
theorem serializeOpenFailure (fs : String → ReadOutcome) (filePath P msg : String)
    (h : fs filePath = .openErr msg) :
    (writeFileContent fs filePath P).written = beginMarker P ++ readErrorLine P msg ∧
    (writeFileContent fs filePath P).err = some msg ∧
    (∀ oFile rp name : String, rp ≠ oFile → isHidden name = false →
      (walkStep fs oFile rp name false none (.ok filePath)).action = WalkAction.cont ∧
      (walkStep fs oFile rp name false none (.ok filePath)).written =
        beginMarker rp ++ readErrorLine rp msg ∧
      (walkStep fs oFile rp name false none (.ok filePath)).logs =
        ["Error opening file", "Error processing file"]) := by
  have hw : writeFileContent fs filePath P =
      ⟨beginMarker P ++ readErrorLine P msg, some msg, ["Error opening file"]⟩ := by
    unfold writeFileContent; rw [h]
  refine ⟨by rw [hw], by rw [hw], ?_⟩
  intro oFile rp name hout hhid
  have hw2 : writeFileContent fs filePath rp =
      ⟨beginMarker rp ++ readErrorLine rp msg, some msg, ["Error opening file"]⟩ := by
    unfold writeFileContent; rw [h]
  rw [walkStep_serialize fs oFile rp name filePath hout hhid, hw2]
  exact ⟨rfl, rfl, rfl⟩

/-- Claim C3 witness: a file that vanished between discovery and open yields
the diagnostic line and a logged-but-swallowed error. -/
theorem serializeOpenFailure_witness :
    (writeFileContent (fun _ => .openErr "no such file") "/repo/gone.txt" "gone.txt").written =
      beginMarker "gone.txt" ++ readErrorLine "gone.txt" "no such file" ∧
    (walkStep (fun _ => .openErr "no such file") "out.txt" "gone.txt" "gone.txt" false none
      (.ok "/repo/gone.txt")).action = WalkAction.cont ∧
    (walkStep (fun _ => .openErr "no such file") "out.txt" "gone.txt" "gone.txt" false none
      (.ok "/repo/gone.txt")).logs = ["Error opening file", "Error processing file"] := by
  have h := serializeOpenFailure (fun _ => .openErr "no such file") "/repo/gone.txt"
    "gone.txt" "no such file" rfl
  have h3 := h.2.2 "out.txt" "gone.txt" "gone.txt" (by decide) (by decide)
  exact ⟨h.1, h3.1, h3.2.2⟩

/-- Claim C6: a visited entry whose root-relative path equals the configured
output path is passed over silently — the callback returns `nil` before any
hidden-name check or serializer call, appending no marker, no content and no
log line. -/
theorem outputSelfExclusionSilent (fs : String → ReadOutcome) (oFile name p : String)
    (isDir : Bool) :
    walkStep fs oFile oFile name isDir none (.ok p) = ⟨WalkAction.cont, "", []⟩ :=
  walkStep_selfOutput fs oFile name p isDir

/-- Claim C10: the self-exclusion test is string equality between the entry's
root-relative path and the verbatim configured output value: an exactly-equal
path is passed over, while any textual difference (absolute output path, a
`./` prefix, a root other than the working directory, ...) leaves the entry
unskipped, so the in-tree artifact is serialized into itself. -/
theorem selfExclusionVerbatim (fs : String → ReadOutcome) (oFile rp name p C : String) :
    (rp = oFile →
      walkStep fs oFile rp name false none (.ok p) = ⟨WalkAction.cont, "", []⟩) ∧
    (rp ≠ oFile → isHidden name = false → fs p = .ok C →
      (walkStep fs oFile rp name false none (.ok p)).action = WalkAction.cont ∧
      (walkStep fs oFile rp name false none (.ok p)).written =
        beginMarker rp ++ C ++ endMarker rp) := by
  constructor
  · intro h
    rw [h]
    exact walkStep_selfOutput fs oFile name p false
  · intro hout hhid hread
    have hw : writeFileContent fs p rp =
        ⟨beginMarker rp ++ C ++ endMarker rp, none, []⟩ := by
      unfold writeFileContent; rw [hread]
    rw [walkStep_serialize fs oFile rp name p hout hhid, hw]
    exact ⟨rfl, rfl⟩

/-- Claim C10 witness: with an absolute `--output` value, the artifact's
in-tree relative path differs textually, and the artifact is ingested. -/
theorem selfExclusionVerbatim_witness :
    ("out.txt" : String) ≠ "/home/user/out.txt" ∧
    (walkStep (fun _ => .ok "ARTIFACT") "/home/user/out.txt" "out.txt" "out.txt" false none
      (.ok "/repo/out.txt")).written =
      beginMarker "out.txt" ++ "ARTIFACT" ++ endMarker "out.txt" := by
  refine ⟨by decide, ?_⟩
  exact ((selfExclusionVerbatim (fun _ => .ok "ARTIFACT") "/home/user/out.txt" "out.txt"
    "out.txt" "/repo/out.txt" "ARTIFACT").2 (by decide) (by decide) rfl).2

/-- A file entry whose symlink resolution fails makes the walk of that entry
return the error. -/
theorem walkNode_symErr_file (fs : String → ReadOutcome) (oFile rp name msg : String) :
    walkNode fs oFile rp (.file name none (.error msg)) = .error msg := by
  simp [walkNode, walkStep_symErr]

/-- Claim C1 (counterexample): a tree whose first entry is a broken symlink
and whose second is a readable non-hidden file.  The claim says the broken
entry alone is skipped and the walk continues over siblings; the code instead
returns the error from the callback, so the whole walk aborts with it — the
sibling `good.txt` never reaches the output — and the run exits 1. -/
theorem symlinkFailureNotSkipped_cex :
    walkNode (fun p => if p = "/repo/good.txt" then .ok "hello" else .openErr "unused")
      "out.txt" "."
      (.dir "repo" none (.ok "/repo")
        [.file "bad.txt" none (.error "lstat bad.txt: no such file"),
         .file "good.txt" none (.ok "/repo/good.txt")]) =
      .error "lstat bad.txt: no such file" ∧
    mainRun ⟨false, false, "out.txt",
      (fun p => if p = "/repo/good.txt" then .ok "hello" else .openErr "unused"),
      .dir "repo" none (.ok "/repo")
        [.file "bad.txt" none (.error "lstat bad.txt: no such file"),
         .file "good.txt" none (.ok "/repo/good.txt")], false⟩ = (1, none) :=
  ⟨rfl, rfl⟩

/-- Claim C1 (amended): when symbolic-link resolution fails for an entry, the
error is logged and returned from the walk callback, which aborts the entire
walk — no sibling after the failing entry is visited — and a run whose walk
fails this way exits with code 1.  (Per-entry tolerance holds only for
file-open and content-copy failures, handled inside the serializer path.) -/
theorem symlinkFailureAbortsWalk (fs : String → ReadOutcome)
    (oFile rp name msg : String) (isDir : Bool) :
    (walkStep fs oFile rp name isDir none (.error msg)).action = WalkAction.fail msg ∧
    (walkStep fs oFile rp name isDir none (.error msg)).logs =
      ["Failed to evaluate symbolic link"] ∧
    (∀ pre post : List FSNode, faultFreeList pre = true →
      walkEntries fs oFile rp (pre ++ FSNode.file name none (.error msg) :: post) =
        .error msg) ∧
    (∀ w : RunInput, w.absErr = false → w.createErr = false →
      walkNode w.fs w.outputFile "." w.root = .error msg → mainRun w = (1, none)) := by
  refine ⟨by rw [walkStep_symErr], by rw [walkStep_symErr], ?_, ?_⟩
  · intro pre post hpre
    induction pre with
    | nil => simp [walkEntries, walkNode_symErr_file]
    | cons n rest ih =>
      have h1 : faultFree n = true := by
        simp [faultFreeList] at hpre; exact hpre.1
      have h2 : faultFreeList rest = true := by
        simp [faultFreeList] at hpre; exact hpre.2
      obtain ⟨w, hw⟩ := walkNode_ok_of_faultFree fs oFile (relJoin rp n.name) n h1
      simp [walkEntries, hw, ih h2]
  · intro w ha hc hwalk
    simp [mainRun, ha, hc, hwalk]

/-- Claim C1 (amended) witness: a clean sibling before the broken entry is
still written, but the broken entry then aborts the rest of the listing. -/
theorem symlinkFailureAbortsWalk_witness :
    faultFreeList [FSNode.file "a.txt" none (.ok "/r/a.txt")] = true ∧
    walkEntries (fun _ => .ok "x") "out.txt" "."
      ([FSNode.file "a.txt" none (.ok "/r/a.txt")] ++
        FSNode.file "bad.txt" none (.error "broken") ::
          [FSNode.file "z.txt" none (.ok "/r/z.txt")]) = .error "broken" := by
  refine ⟨rfl, ?_⟩
  exact (symlinkFailureAbortsWalk (fun _ => .ok "x") "out.txt" "." "bad.txt" "broken"
    false).2.2.1 [FSNode.file "a.txt" none (.ok "/r/a.txt")]
    [FSNode.file "z.txt" none (.ok "/r/z.txt")] rfl

/-- Claim C4 (counterexample): a hidden directory (not `.github`) whose
root-relative path textually equals the configured output value is reached by
the self-exclusion check first, which returns `nil`, so the callback does not
return `SkipDir` and the walk descends: `bar.txt` beneath it appears in the
output.  This refutes the unconditional `every hidden directory's subtree is
skipped`. -/
theorem hiddenDirOutputOverlap_cex :
    (walkStep (fun _ => .ok "Y") ".foo" ".foo" ".foo" true none
      (.ok "/t/.foo")).action ≠ WalkAction.skipDir ∧
    isHidden ".foo" = true ∧ (".foo" : String) ≠ ".github" ∧
    walkNode (fun _ => .ok "Y") ".foo" ".foo"
      (.dir ".foo" none (.ok "/t/.foo") [.file "bar.txt" none (.ok "/t/.foo/bar.txt")]) =
      .ok ("\n\n# BEGIN FILE: .foo/bar.txt\n\nY\n\n# END FILE: .foo/bar.txt\n\n") := by
  exact ⟨by decide, by decide, by decide, rfl⟩

/-- Claim C4 (amended): every visited directory entry whose name is hidden,
is not `.github`, and whose root-relative path does not equal the configured
output value has its whole subtree skipped, so nothing beneath it is written;
a directory named exactly `.github` is descended into despite its hidden
prefix; and every hidden regular-file entry is passed over with no serializer
call, no output and no log (this last part needs no output-path side
condition: both branches return `nil` without serializing). -/
theorem hiddenEntrySuppression (fs : String → ReadOutcome) (oFile rp name p : String)
    (entries : List FSNode)
    (hhid : isHidden name = true) (hgit : name ≠ ".github") (hout : rp ≠ oFile) :
    (walkStep fs oFile rp name true none (.ok p)).action = WalkAction.skipDir ∧
    walkNode fs oFile rp (.dir name none (.ok p) entries) = .ok "" ∧
    (∀ rp2 q : String,
      (walkStep fs oFile rp2 ".github" true none (.ok q)).action = WalkAction.cont) ∧
    (∀ fname frp q : String, isHidden fname = true →
      walkStep fs oFile frp fname false none (.ok q) = ⟨WalkAction.cont, "", []⟩) := by
  have hstep := walkStep_hiddenDir fs oFile rp name p hout hhid hgit
  refine ⟨by rw [hstep], by simp [walkNode, hstep], ?_, ?_⟩
  · intro rp2 q
    by_cases h2 : rp2 = oFile
    · rw [h2, walkStep_selfOutput]
    · rw [walkStep_descendDir fs oFile rp2 ".github" q (Or.inr rfl)]
  · intro fname frp q hf
    exact walkStep_hiddenFile fs oFile frp fname q hf

/-- Claim C4 (amended) witness: a `.secret` directory away from the output
path is skipped whole; its inner file never reaches the output. -/
theorem hiddenEntrySuppression_witness :
    isHidden ".secret" = true ∧
    walkNode (fun _ => .ok "S") "out.txt" ".secret"
      (.dir ".secret" none (.ok "/r/.secret")
        [.file "inner.txt" none (.ok "/r/.secret/inner.txt")]) = .ok "" := by
  refine ⟨by decide, ?_⟩
  exact (hiddenEntrySuppression (fun _ => .ok "S") "out.txt" ".secret" ".secret"
    "/r/.secret" [.file "inner.txt" none (.ok "/r/.secret/inner.txt")]
    (by decide) (by decide) (by decide)).2.1

/-- Claim C5: the process exits 0 on success and 1 exactly on the fatal
classes — root path resolution failure, output file creation failure, an
error returned by the tree-walk driver, or final flush failure; and in a tree
free of driver/symlink faults, per-file read errors (which live in the read
oracle `fs`, universally quantified here) never change the exit code. -/
theorem exitCodeSpec (w : RunInput) :
    ((mainRun w).1 = 0 ∨ (mainRun w).1 = 1) ∧
    ((mainRun w).1 = 0 ↔
      w.absErr = false ∧ w.createErr = false ∧
      (∃ out, walkNode w.fs w.outputFile "." w.root = .ok out) ∧
      w.flushErr = false) ∧
    (faultFree w.root = true →
      ((mainRun w).1 = 0 ↔
        w.absErr = false ∧ w.createErr = false ∧ w.flushErr = false)) := by
  obtain ⟨a, c, o, fs, root, f⟩ := w
  cases a with
  | true => simp [mainRun]
  | false =>
    cases c with
    | true => simp [mainRun]
    | false =>
      cases hw : walkNode fs o "." root with
      | error m =>
        refine ⟨Or.inr (by simp [mainRun, hw]), by simp [mainRun, hw], fun hff => ?_⟩
        obtain ⟨out, hout⟩ := walkNode_ok_of_faultFree fs o "." root hff
        rw [hout] at hw
        simp at hw
      | ok written =>
        cases f with
        | true => simp [mainRun, hw]
        | false => simp [mainRun, hw]

/-- Claim C5 witness: a run over a fault-free tree whose only failure is a
per-file open error still exits 0. -/
theorem exitCodeSpec_witness :
    faultFree (FSNode.dir "repo" none (.ok "/repo")
      [FSNode.file "a.txt" none (.ok "/repo/a.txt")]) = true ∧
    (mainRun ⟨false, false, "out.txt", (fun _ => .openErr "denied"),
      FSNode.dir "repo" none (.ok "/repo")
        [FSNode.file "a.txt" none (.ok "/repo/a.txt")], false⟩).1 = 0 := by
  refine ⟨rfl, ?_⟩
  exact ((exitCodeSpec ⟨false, false, "out.txt", (fun _ => .openErr "denied"),
    FSNode.dir "repo" none (.ok "/repo")
      [FSNode.file "a.txt" none (.ok "/repo/a.txt")], false⟩).2.2 rfl).mpr
    ⟨rfl, rfl, rfl⟩

/-- Claim C8: the traversal is a deterministic function of the tree and the
read oracle; over an unchanged tree, two runs with fresh output paths (paths
not matching any visited relative path, as the generated timestamped default
names are) produce byte-identical artifacts. -/
theorem freshOutputIdempotence (fs : String → ReadOutcome) (t : FSNode) (o1 o2 : String)
    (h1 : o1 ∉ allRelPaths "." t) (h2 : o2 ∉ allRelPaths "." t) :
    walkNode fs o1 "." t = walkNode fs o2 "." t ∧
    (mainRun ⟨false, false, o1, fs, t, false⟩).2 =
      (mainRun ⟨false, false, o2, fs, t, false⟩).2 := by
  have h := walkNode_indep fs o1 o2 "." t h1 h2
  refine ⟨h, ?_⟩
  simp only [mainRun]
  rw [h]

/-- Claim C8 witness: two runs with default-style output names differing only
in the timestamp produce the same artifact bytes over the same tree. -/
theorem freshOutputIdempotence_witness :
    "combined_repo_linux_20260101T000000.txt" ∉
      allRelPaths "." (FSNode.dir "repo" none (.ok "/repo")
        [FSNode.file "a.txt" none (.ok "/repo/a.txt")]) ∧
    walkNode (fun _ => .ok "x") "combined_repo_linux_20260101T000000.txt" "."
      (FSNode.dir "repo" none (.ok "/repo")
        [FSNode.file "a.txt" none (.ok "/repo/a.txt")]) =
    walkNode (fun _ => .ok "x") "combined_repo_linux_20260101T000001.txt" "."
      (FSNode.dir "repo" none (.ok "/repo")
        [FSNode.file "a.txt" none (.ok "/repo/a.txt")]) := by
  refine ⟨by decide, ?_⟩
  exact (freshOutputIdempotence (fun _ => .ok "x")
    (FSNode.dir "repo" none (.ok "/repo")
      [FSNode.file "a.txt" none (.ok "/repo/a.txt")])
    "combined_repo_linux_20260101T000000.txt" "combined_repo_linux_20260101T000001.txt"
    (by decide) (by decide)).1

/-- Claim C9: if the root's base name is hidden and not `.github` (and the
output name is not `"."`, the only configuration that reaches the walk, since
`os.Create(".")` cannot succeed), the callback returns `SkipDir` on its very
first invocation — the root entry, whose relative path is `"."` — so the
whole tree is skipped and the run succeeds with a zero-byte artifact. -/
theorem hiddenRootSkipsAll (fs : String → ReadOutcome) (oFile name p : String)
    (entries : List FSNode)
    (hhid : isHidden name = true) (hgit : name ≠ ".github") (ho : oFile ≠ ".") :
    (walkStep fs oFile "." name true none (.ok p)).action = WalkAction.skipDir ∧
    walkNode fs oFile "." (.dir name none (.ok p) entries) = .ok "" ∧
    mainRun ⟨false, false, oFile, fs, .dir name none (.ok p) entries, false⟩ =
      (0, some "") := by
  have hstep := walkStep_hiddenDir fs oFile "." name p (Ne.symm ho) hhid hgit
  have hwalk : walkNode fs oFile "." (.dir name none (.ok p) entries) = .ok "" := by
    simp [walkNode, hstep]
  exact ⟨by rw [hstep], hwalk, by simp [mainRun, hwalk]⟩

/-- Claim C9 witness: a hidden root directory yields an empty artifact and a
clean exit. -/
theorem hiddenRootSkipsAll_witness :
    isHidden ".hiddenrepo" = true ∧
    mainRun ⟨false, false, "out.txt", (fun _ => .ok "x"),
      .dir ".hiddenrepo" none (.ok "/home/u/.hiddenrepo")
        [.file "a.txt" none (.ok "/home/u/.hiddenrepo/a.txt")], false⟩ =
      (0, some "") := by
  refine ⟨by decide, ?_⟩
  exact (hiddenRootSkipsAll (fun _ => .ok "x") "out.txt" ".hiddenrepo"
    "/home/u/.hiddenrepo" [.file "a.txt" none (.ok "/home/u/.hiddenrepo/a.txt")]
    (by decide) (by decide) (by decide)).2.2

end Colligo
